import Mathlib

/-!
Verification of the picar koishi plugin (src/src/index.ts) against its
design specification. JavaScript strings are modelled as Lean String or
List Char; JavaScript numbers that hold integers are modelled as Int or
Nat. External collaborators (the filesystem, the network, JSON.parse,
per-image fetches and the random source) are modelled as explicit oracle
parameters, and the listCandidates-level side effects are threaded through
an explicit World state.
-/

/-! ## JavaScript string primitives -/

/-- Whitespace for the purposes of String.prototype.trim, restricted to the
ASCII whitespace characters plus no-break space (the inputs in scope are
ordinary command arguments). -/
def isJsWs (c : Char) : Bool :=
  c = ' ' || c = '\t' || c = '\n' || c = '\r' || c = '\x0b' || c = '\x0c' || c = '\xa0'

/-- JavaScript String.prototype.trim. -/
def jsTrim (s : String) : String :=
  String.mk (((s.toList.dropWhile isJsWs).reverse.dropWhile isJsWs).reverse)

/-- JavaScript String.prototype.startsWith with a plain string argument. -/
def jsStartsWith (s pre : String) : Bool :=
  List.isPrefixOf pre.toList s.toList

/-- JavaScript String.prototype.split with a single-character separator. -/
def splitOnChar (sep : Char) : List Char → List (List Char)
  | [] => [[]]
  | c :: rest =>
      let r := splitOnChar sep rest
      if c = sep then [] :: r
      else match r with
        | [] => [[c]]
        | h :: t => (c :: h) :: t

/-- Numeric value of a list of decimal digits. -/
def digitsVal (ds : List Char) : Nat :=
  ds.foldl (fun a c => a * 10 + (c.toNat - 48)) 0

/-- JavaScript parseInt on the decimal fragment: skip leading whitespace,
read an optional sign and then the longest prefix of decimal digits; none
models NaN (no digit found). Hexadecimal prefixes and exponents are outside
the inputs in scope. -/
def jsParseInt (s : String) : Option Int :=
  let cs := s.toList.dropWhile isJsWs
  match cs with
  | '-' :: rest =>
      let ds := rest.takeWhile Char.isDigit
      if ds.isEmpty then none else some (-(digitsVal ds : Int))
  | '+' :: rest =>
      let ds := rest.takeWhile Char.isDigit
      if ds.isEmpty then none else some ((digitsVal ds : Int))
  | _ =>
      let ds := cs.takeWhile Char.isDigit
      if ds.isEmpty then none else some ((digitsVal ds : Int))

/-- The combination Number(x) || 0 used for uploader ids: an undefined or
non-numeric string coerces to 0, a signed decimal integer to its value
(integer inputs only; the session user ids in scope are decimal strings). -/
def jsNumberOr0 (s : Option String) : Int :=
  match s with
  | none => 0
  | some s =>
      let t := (jsTrim s).toList
      if t.isEmpty then 0
      else match t with
        | '-' :: rest =>
            if !rest.isEmpty && rest.all Char.isDigit then -(digitsVal rest : Int) else 0
        | '+' :: rest =>
            if !rest.isEmpty && rest.all Char.isDigit then (digitsVal rest : Int) else 0
        | _ => if t.all Char.isDigit then (digitsVal t : Int) else 0

/-- Node path.basename: trailing slashes are ignored, then the part after
the final slash is returned. -/
def jsBasename (p : String) : String :=
  let q := (p.toList.reverse.dropWhile (fun c => c = '/')).reverse
  if q.isEmpty then (if p.toList.isEmpty then "" else "/")
  else String.mk ((splitOnChar '/' q).getLastD [])

/-- Node path.join of a directory and an entry name (normalization of
repeated separators inside the arguments is not modelled; the paths in
scope have at most one trailing slash). -/
def joinPath (d n : String) : String :=
  if List.isSuffixOf ['/'] d.toList then d ++ n else d ++ "/" ++ n

/-- The source regex that recognizes a Windows drive-rooted path. -/
def isDriveRooted (s : String) : Bool :=
  match s.toList with
  | a :: b :: c :: _ => a.isAlpha && (b == ':') && (c == '\\')
  | _ => false

/-! ## Placeholder replacement machinery -/

/-- The literal placeholder token. -/
def patL : List Char := "\x7bpict\x7d".toList

/-- JavaScript String.prototype.replace with a plain (nonempty) string
pattern: the first occurrence of pat is replaced by rep (the replacement
strings produced by the plugin contain no dollar sign, so the substitution
patterns of JavaScript replace do not arise). -/
def replaceFirst (pat rep : List Char) : List Char → List Char
  | [] => []
  | c :: cs =>
      if List.isPrefixOf pat (c :: cs) then rep ++ cs.drop (pat.length - 1)
      else c :: replaceFirst pat rep cs

/-- Fuel-driven scan counting the left-to-right non-overlapping occurrences
of pat, as template.matchAll finds them. -/
def countOccAux (pat : List Char) : Nat → List Char → Nat
  | 0, _ => 0
  | _ + 1, [] => 0
  | fuel + 1, c :: cs =>
      if List.isPrefixOf pat (c :: cs) then countOccAux pat fuel (cs.drop (pat.length - 1)) + 1
      else countOccAux pat fuel cs

/-- Number of matches of the (nonempty) pattern pat in s, in the sense of
matchAll: left-to-right, non-overlapping. -/
def countOcc (pat s : List Char) : Nat := countOccAux pat s.length s

/-- The reduce step of replacePixivPlaceholders: the i-th replacement text
is applied by replacing the first occurrence of the placeholder in the
already partially substituted string. -/
def applyReplacements (pat : List Char) (contents : List (List Char)) (template : List Char) : List Char :=
  contents.foldl (fun res content => replaceFirst pat content res) template

/-- Fuel-driven positional splicing helper: see spliceAll. -/
def spliceAllAux (pat : List Char) : Nat → List (List Char) → List Char → List Char
  | 0, _, s => s
  | _ + 1, _, [] => []
  | _ + 1, [], s => s
  | fuel + 1, r :: rs, c :: cs =>
      if List.isPrefixOf pat (c :: cs) then r ++ spliceAllAux pat fuel rs (cs.drop (pat.length - 1))
      else c :: spliceAllAux pat fuel (r :: rs) cs

/-- Modelled from the spec: positional splicing, the substitution the spec
prescribes for step 6 of the resolver. Scanning the original template left
to right, the i-th placeholder occurrence is replaced by the i-th
replacement text, and replacement texts are never re-scanned. This is the
specification-side definition against which the reduce/replace loop of
replacePixivPlaceholders is compared. -/
def spliceAll (pat : List Char) (reps : List (List Char)) (s : List Char) : List Char :=
  spliceAllAux pat s.length reps s

/-! ## MIME derivation -/

/-- Remote branch extension extraction: candidate.split(sep).pop(),
lower-cased, defaulting to jpg when empty. -/
def remoteExtOf (candidate : String) : String :=
  let lastSeg := ((splitOnChar '.' candidate.toList).getLastD []).map Char.toLower
  if lastSeg.isEmpty then "jpg" else String.mk lastSeg

/-- The remote-candidate extension-to-MIME conditional of the source. -/
def extMimeRemote (ext : String) : String :=
  if ext = "png" then "image/png" else if ext = "gif" then "image/gif" else "image/jpeg"

/-- MIME type assigned to a remote candidate. -/
def remoteMime (candidate : String) : String := extMimeRemote (remoteExtOf candidate)

/-- Node path.extname (posix): the suffix of the basename from its last
dot, empty when there is no dot or only a leading dot, and empty on the
special names dot and dot-dot. -/
def extnameOf (p : String) : String :=
  let b := (splitOnChar '/' p.toList).getLastD []
  if b = ['.'] ∨ b = ['.', '.'] then ""
  else
    let rev := b.reverse
    let afterDot := rev.takeWhile (fun c => c != '.')
    if afterDot.length = rev.length then ""
    else if afterDot.length + 1 = rev.length then ""
    else String.mk ('.' :: afterDot.reverse)

/-- Local branch extension extraction: extname(candidate).slice(1)
lower-cased. -/
def localExtOf (candidate : String) : String :=
  String.mk (((extnameOf candidate).toList.drop 1).map Char.toLower)

/-- The local-candidate extension-to-MIME conditional of the source (the
only branch that can produce webp). -/
def extMimeLocal (ext : String) : String :=
  if ext = "png" then "image/png"
  else if ext = "gif" then "image/gif"
  else if ext = "webp" then "image/webp"
  else "image/jpeg"

/-- MIME type assigned to a local candidate. -/
def localMime (candidate : String) : String := extMimeLocal (localExtOf candidate)

/-! ## Inline image content -/

/-- The base64 alphabet. -/
def base64Chars : List Char :=
  "ABCDEFGHIJKLMNOPQRSTUVWXYZabcdefghijklmnopqrstuvwxyz0123456789+/".toList

/-- Character for a 6-bit group. -/
def b64char (n : Nat) : Char := base64Chars.getD n 'A'

/-- Buffer.prototype.toString with base64 encoding, on a byte list. -/
def base64Encode : List Nat → List Char
  | [] => []
  | [a] => [b64char (a % 256 / 4), b64char (a % 4 * 16), '=', '=']
  | [a, b] => [b64char (a % 256 / 4), b64char (a % 4 * 16 + b % 256 / 16), b64char (b % 16 * 4), '=']
  | a :: b :: c :: rest =>
      [b64char (a % 256 / 4), b64char (a % 4 * 16 + b % 256 / 16),
       b64char (b % 16 * 4 + c % 256 / 64), b64char (c % 64)] ++ base64Encode rest

/-- The inline image markup built for one successfully resolved candidate. -/
def mkContent (b64 : List Char) (mime : String) : List Char :=
  "<image src=\"base64://".toList ++ b64 ++ "\" type=\"".toList ++ mime.toList ++ "\"/>".toList

/-- The body of one placeholder resolution: empty candidate list or a
failed byte fetch yields the empty substitution, otherwise the inline
image markup with the MIME type chosen by the remote or local rule. The
byte fetch (HTTP GET with a browser user-agent, or fs.readFile) is the
oracle imgFetch; pick is the index drawn by Math.random for this
occurrence. -/
def contentFor (imgFetch : String → Option (List Nat)) (arr : List String) (pick : Nat) : List Char :=
  if arr.length = 0 then []
  else
    let candidate := arr.getD pick ""
    match imgFetch candidate with
    | none => []
    | some bytes =>
        let mime :=
          if jsStartsWith candidate "http://" = true ∨ jsStartsWith candidate "https://" = true then
            remoteMime candidate
          else localMime candidate
        mkContent (base64Encode bytes) mime

/-- The pure part of replacePixivPlaceholders once the candidate list arr
is known: count the matches, build one replacement text per match
(occurrence i picks candidate index picks i), then fold the naive
first-occurrence replace over the template, exactly as the final reduce of
the source does. -/
def replacePixivModel (imgFetch : String → Option (List Nat)) (picks : Nat → Nat)
    (template : String) (arr : List String) : String :=
  let n := countOcc patL template.toList
  if n = 0 then template
  else
    String.mk (applyReplacements patL
      ((List.range n).map (fun i => contentFor imgFetch arr (picks i))) template.toList)

/-! ## Candidate listing with explicit effects -/

/-- Result of JSON.parse as far as the plugin inspects it: an array of
candidate strings, or any non-array JSON value. -/
inductive JsonVal where
  | jarr (xs : List String)
  | jother
deriving DecidableEq

/-- Outcome of the bounded GET of a remote JSON list: failure stands for a
timeout or a thrown exception, response carries res.ok and the body text. -/
inductive FetchOutcome where
  | failure
  | response (ok : Bool) (body : String)
deriving DecidableEq

/-- One entry of fs.readdir with withFileTypes: its name and whether it is
a regular file. -/
structure DirEntry where
  name : String
  isFile : Bool
deriving DecidableEq

/-- Observable listCandidates-level effects: the data files on disk (most
recent write first), the JSON-list fetches issued, the directories listed,
the cache files read, and the error-level log lines. -/
structure World where
  files : List (String × String)
  fetches : List String
  dirReads : List String
  fileReads : List String
  errors : Nat
deriving DecidableEq

def addFetch (w : World) (u : String) : World :=
  ⟨w.files, u :: w.fetches, w.dirReads, w.fileReads, w.errors⟩

def addErr (w : World) : World :=
  ⟨w.files, w.fetches, w.dirReads, w.fileReads, w.errors + 1⟩

def addDirRead (w : World) (p : String) : World :=
  ⟨w.files, w.fetches, p :: w.dirReads, w.fileReads, w.errors⟩

def addFileRead (w : World) (p : String) : World :=
  ⟨w.files, w.fetches, w.dirReads, p :: w.fileReads, w.errors⟩

def putFile (w : World) (p c : String) : World :=
  ⟨(p, c) :: w.files, w.fetches, w.dirReads, w.fileReads, w.errors⟩

/-- The cache file path for a remote source: resolve(baseDir, data,
basename(url)). -/
def cachePathOf (baseDir url : String) : String :=
  joinPath (joinPath baseDir "data") (jsBasename url)

/-- The image-name filter of the local branch, the test of the regex that
matches a dot followed by jpg, jpeg, png, gif or webp at the end of the
name, case-insensitively. -/
def isImageName (name : String) : Bool :=
  let l := name.toList.map Char.toLower
  List.isSuffixOf ".jpg".toList l || List.isSuffixOf ".jpeg".toList l ||
  List.isSuffixOf ".png".toList l || List.isSuffixOf ".gif".toList l ||
  List.isSuffixOf ".webp".toList l

/-- The directory actually listed by the local branch: an absolute or
drive-rooted configured path is used as is, anything else is resolved
against the working directory. -/
def resolvedDirOf (baseDir imagesPath : String) : String :=
  if jsStartsWith imagesPath "/" = true ∨ isDriveRooted imagesPath = true then imagesPath
  else joinPath baseDir imagesPath

/-- The remote branch of getPixivLinks: if the cache file exists it is read
and parsed; otherwise one GET is issued, a success body is persisted to the
cache file and then parsed, and any failure is logged and yields the empty
list with nothing written. A parsed non-array also yields the empty list. -/
def getPixivRemote (parseJson : String → Option JsonVal) (net : String → FetchOutcome)
    (baseDir url : String) (w : World) : List String × World :=
  let filePath := cachePathOf baseDir url
  match List.lookup filePath w.files with
  | some c =>
      let w1 := addFileRead w filePath
      match parseJson c with
      | some (JsonVal.jarr xs) => (xs, w1)
      | some JsonVal.jother => ([], w1)
      | none => ([], addErr w1)
  | none =>
      match net url with
      | FetchOutcome.failure => ([], addErr (addFetch w url))
      | FetchOutcome.response ok body =>
          if ok then
            let w1 := addFileRead (putFile (addFetch w url) filePath body) filePath
            match parseJson body with
            | some (JsonVal.jarr xs) => (xs, w1)
            | some JsonVal.jother => ([], w1)
            | none => ([], addErr w1)
          else ([], addErr (addFetch w url))

/-- getPixivLinks of the source: empty source yields nothing, a source
without an http or https scheme is treated as a local directory whose
direct entries are filtered by the image-extension regex and joined onto
the directory path (a read error is logged and yields the empty list), and
a scheme-prefixed source goes through the cached remote JSON branch. -/
def getPixivLinks (readdir : String → Except String (List DirEntry))
    (net : String → FetchOutcome) (parseJson : String → Option JsonVal)
    (baseDir imagesPath : String) (w : World) : List String × World :=
  if imagesPath = "" then ([], w)
  else if ¬(jsStartsWith imagesPath "http://" = true ∨ jsStartsWith imagesPath "https://" = true) then
    let dirPath := resolvedDirOf baseDir imagesPath
    match readdir dirPath with
    | Except.ok entries =>
        ((entries.filter (fun f => f.isFile && isImageName f.name)).map
          (fun f => joinPath dirPath f.name), addDirRead w dirPath)
    | Except.error _ => ([], addErr (addDirRead w dirPath))
  else getPixivRemote parseJson net baseDir imagesPath w

/-- replacePixivPlaceholders of the source: a template without the
placeholder token is returned unchanged and no source access of any kind
is made; otherwise the candidate list is resolved once and each occurrence
is substituted by the reduce/replace loop. -/
def replacePixivPlaceholders (readdir : String → Except String (List DirEntry))
    (net : String → FetchOutcome) (parseJson : String → Option JsonVal)
    (imgFetch : String → Option (List Nat)) (picks : Nat → Nat)
    (baseDir template url : String) (w : World) : String × World :=
  if countOcc patL template.toList = 0 then (template, w)
  else
    let res := getPixivLinks readdir net parseJson baseDir url w
    (replacePixivModel imgFetch picks template res.1, res.2)

/-- What the plugin does with a parsed cache body: an array is returned as
is, anything else becomes the empty list. -/
def decodeJson (j : Option JsonVal) : List String :=
  match j with
  | some (JsonVal.jarr xs) => xs
  | _ => []

/-! ## Tag store commands -/

/-- One row of the picar_images table as the plugin writes and reads it
(the auto-increment id is owned by the persistence layer and omitted). -/
structure ImageRow where
  tag : String
  img_url : String
  uploader : String
  uploaderId : Int
  upload_time : Nat
deriving DecidableEq

/-- The two tables: picar_tags rows (their tag strings) and picar_images
rows, in insertion order. -/
structure DB where
  tags : List String
  images : List ImageRow
deriving DecidableEq

/-- One message element as the add command inspects it: its type and its
src attribute. -/
structure MsgElement where
  type : String
  src : String
deriving DecidableEq

/-- The claim-side missing-argument predicate: the argument is undefined,
empty or whitespace-only after trimming, or begins with the character
less-than. -/
def argMissingSpec (a : Option String) : Prop :=
  a = none ∨ ∃ s, a = some s ∧ (s = "" ∨ jsTrim s = "" ∨ jsStartsWith s "<" = true)

/-- The filter chosen by the random command: a truthy, non-blank argument
that does not begin with less-than filters by tag, anything else queries
unfiltered. -/
inductive RandCond where
  | unfiltered
  | byTag (t : String)
deriving DecidableEq

/-- The condition expression of the random command action. -/
def randomCondition (arg1 : Option String) : RandCond :=
  match arg1 with
  | none => RandCond.unfiltered
  | some s =>
      if ¬(s = "") ∧ ¬(jsTrim s = "") ∧ ¬(jsStartsWith s "<" = true) then RandCond.byTag s
      else RandCond.unfiltered

/-- The database query made by the random command under its condition. -/
def randomQuery (images : List ImageRow) (arg1 : Option String) : List ImageRow :=
  match randomCondition arg1 with
  | RandCond.unfiltered => images
  | RandCond.byTag t => images.filter (fun r => r.tag == t)

/-- The page number used by the list command: Math.max(1, parseInt(page)
|| 1), so an absent, non-numeric or zero argument becomes 1 and a negative
one is clamped to 1. -/
def pageNumOf (page : Option String) : Nat :=
  let v : Int :=
    match page with
    | none => 1
    | some s =>
        match jsParseInt s with
        | none => 1
        | some n => if n = 0 then 1 else n
  (max 1 v).toNat

/-- Reply of the list command: the usage message, the empty-tag message,
the out-of-range message carrying the requested page and the total, or the
forwarded page carrying its image urls, page number, total pages and total
row count. -/
inductive LookResult where
  | usage
  | empty (tag : String)
  | outOfRange (pageNum totalPages : Nat)
  | pageMsg (imgs : List String) (pageNum totalPages total : Nat)
deriving DecidableEq

/-- The list-by-tag action on the rows the database returns for the tag:
guard the argument, report an empty tag, compute the page number and the
page count at page size 10, reject pages beyond the total, otherwise
slice out the requested page. -/
def lookAction (arg1 : Option String) (page : Option String) (rows : List String) : LookResult :=
  match arg1 with
  | none => LookResult.usage
  | some tag =>
      if tag = "" ∨ jsTrim tag = "" ∨ jsStartsWith tag "<" = true then LookResult.usage
      else if rows.length = 0 then LookResult.empty tag
      else
        let pageSize := 10
        let pageNum := pageNumOf page
        let totalPages := (rows.length + pageSize - 1) / pageSize
        if totalPages < pageNum then LookResult.outOfRange pageNum totalPages
        else
          LookResult.pageMsg ((rows.drop ((pageNum - 1) * pageSize)).take pageSize)
            pageNum totalPages rows.length

/-- Reply of the add command. -/
inductive AddResult where
  | usage
  | noImages
  | added (tag : String) (count : Nat)
deriving DecidableEq

/-- The uploader display name: session.username || the unknown-user
fallback. -/
def uploaderNameOf (username : Option String) : String :=
  match username with
  | none => "未知用户"
  | some u => if u = "" then "未知用户" else u

/-- The image attachments collected by the add command: the img elements
of the quoted message first, then the img elements of the invoking
message, each contributing its src. -/
def collectImgs (quoteEls : Option (List MsgElement)) (sessionEls : List MsgElement) : List String :=
  (match quoteEls with
   | some els => (els.filter (fun e => e.type == "img")).map (fun e => e.src)
   | none => []) ++
  (sessionEls.filter (fun e => e.type == "img")).map (fun e => e.src)

/-- The add-image-to-tag action: guard the argument, collect attachments,
report when none, create the tag row when no row with this tag exists,
then upsert one image row per attachment, all rows sharing the uploader
name, the coerced numeric uploader id and the single timestamp taken for
the batch. -/
def addAction (arg1 : Option String) (quoteEls : Option (List MsgElement))
    (sessionEls : List MsgElement) (username userId : Option String) (now : Nat)
    (db : DB) : DB × AddResult :=
  match arg1 with
  | none => (db, AddResult.usage)
  | some tag =>
      if tag = "" ∨ jsTrim tag = "" ∨ jsStartsWith tag "<" = true then (db, AddResult.usage)
      else
        let imgs := collectImgs quoteEls sessionEls
        if imgs.length = 0 then (db, AddResult.noImages)
        else
          let existingTags := db.tags.filter (fun t => t == tag)
          let db1 := if existingTags.length = 0 then DB.mk (db.tags ++ [tag]) db.images else db
          let uploader := uploaderNameOf username
          let uploaderId := jsNumberOr0 userId
          let newRows := imgs.map (fun u => ImageRow.mk tag u uploader uploaderId now)
          (DB.mk db1.tags (db1.images ++ newRows), AddResult.added tag imgs.length)

/-! ## Theorems -/

/-- Claim C1: the claim asserts that substitution behaves as positional
splicing, each occurrence receiving its own resolved content, never
confused by earlier substitutions. The reduce/replace loop of the source
re-scans the partially substituted string instead, and diverges from
positional splicing on a concrete deterministic input: resolving the
template brace-pic-placeholder-t-brace-X-placeholder against a remote
source whose fetch fails (both resolved contents empty) yields X followed
by a literal placeholder, while positional splicing yields the placeholder
text followed by X: the second original occurrence never receives its
content. This evaluates the full code path at the failing input. -/
theorem replace_rescan_bug :
    (replacePixivPlaceholders (fun _ => Except.error "ENOENT") (fun _ => FetchOutcome.failure)
        (fun _ => none) (fun _ => none) (fun _ => 0) "/app" "\x7bpic\x7bpict\x7dt\x7dX\x7bpict\x7d"
        "https://e.com/list.json" (World.mk [] [] [] [] 0)).1 = "X\x7bpict\x7d"
    ∧ String.mk (spliceAll patL (List.replicate
        (countOcc patL "\x7bpic\x7bpict\x7dt\x7dX\x7bpict\x7d".toList) [])
        "\x7bpic\x7bpict\x7dt\x7dX\x7bpict\x7d".toList) = "\x7bpict\x7dX"
    ∧ ("X\x7bpict\x7d" : String) ≠ "\x7bpict\x7dX" := by
  refine ⟨by decide, by decide, by decide⟩

/-- Claim C9: a template with zero occurrences of the placeholder token is
returned unchanged and the world is untouched: no directory read, no
network fetch, no cache read or write, no log line. -/
theorem no_placeholder_no_io (readdir : String → Except String (List DirEntry))
    (net : String → FetchOutcome) (parseJson : String → Option JsonVal)
    (imgFetch : String → Option (List Nat)) (picks : Nat → Nat)
    (baseDir template url : String) (w : World)
    (h : countOcc patL template.toList = 0) :
    replacePixivPlaceholders readdir net parseJson imgFetch picks baseDir template url w
      = (template, w) := by
  simp only [replacePixivPlaceholders]
  rw [if_pos h]

/-- Witness for C9 at a concrete template with no placeholder. -/
theorem no_placeholder_no_io_witness :
    countOcc patL "hello world".toList = 0 ∧
    replacePixivPlaceholders (fun _ => Except.error "e") (fun _ => FetchOutcome.failure)
      (fun _ => none) (fun _ => none) (fun _ => 0) "/app" "hello world"
      "https://e.com/a.json" (World.mk [] [] [] [] 0)
      = ("hello world", World.mk [] [] [] [] 0) :=
  ⟨by decide, no_placeholder_no_io _ _ _ _ _ _ _ _ _ (by decide)⟩

/-- Claim C4: when no cache file exists and the GET of a remote JSON source
fails (timeout, exception, or a non-2xx status), the listing logs the
error, returns the empty sequence, and leaves no cache file behind; with
an empty candidate list every placeholder resolves to the empty
substitution. -/
theorem remote_failure_clean (readdir : String → Except String (List DirEntry))
    (net : String → FetchOutcome) (parseJson : String → Option JsonVal)
    (baseDir url : String) (w : World)
    (hhttp : jsStartsWith url "http://" = true ∨ jsStartsWith url "https://" = true)
    (hmiss : List.lookup (cachePathOf baseDir url) w.files = none)
    (hfail : net url = FetchOutcome.failure ∨ ∃ body, net url = FetchOutcome.response false body) :
    (getPixivLinks readdir net parseJson baseDir url w).1 = []
    ∧ (getPixivLinks readdir net parseJson baseDir url w).2.files = w.files
    ∧ (getPixivLinks readdir net parseJson baseDir url w).2.errors = w.errors + 1
    ∧ (∀ (imgFetch : String → Option (List Nat)) (pick : Nat), contentFor imgFetch [] pick = []) := by
  have hne : ¬(url = "") := by
    rintro rfl
    rcases hhttp with h | h <;> exact absurd h (by decide)
  simp only [getPixivLinks, getPixivRemote, if_neg hne, if_neg (not_not_intro hhttp), hmiss]
  rcases hfail with hf | ⟨body, hf⟩ <;>
    simp [hf, addErr, addFetch, contentFor]

/-- Witness for C4: a concrete failing remote source leaves the files
untouched and yields the empty list. -/
theorem remote_failure_clean_witness :
    List.lookup (cachePathOf "/app" "https://e.com/list.json") (World.mk [] [] [] [] 0).files = none
    ∧ (getPixivLinks (fun _ => Except.error "e") (fun _ => FetchOutcome.failure) (fun _ => none)
        "/app" "https://e.com/list.json" (World.mk [] [] [] [] 0)).1 = []
    ∧ (getPixivLinks (fun _ => Except.error "e") (fun _ => FetchOutcome.failure) (fun _ => none)
        "/app" "https://e.com/list.json" (World.mk [] [] [] [] 0)).2.files
        = (World.mk [] [] [] [] 0 : World).files :=
  ⟨by decide,
    (remote_failure_clean _ _ _ _ _ _ (Or.inr (by decide)) (by decide) (Or.inl rfl)).1,
    (remote_failure_clean _ _ _ _ _ _ (Or.inr (by decide)) (by decide) (Or.inl rfl)).2.1⟩

/-- Claim C2: a remote JSON source is downloaded at most once per URL. The
first resolution with no cache file performs exactly one network fetch and
writes exactly one cache file, keyed by the basename of the URL under the
data directory, and returns the parsed body; and every resolution made
while the cache file exists performs zero network fetches, writes nothing,
and returns the parsed cached content. -/
theorem remote_cache_once (readdir : String → Except String (List DirEntry))
    (net : String → FetchOutcome) (parseJson : String → Option JsonVal)
    (baseDir url body : String) (w : World)
    (hhttp : jsStartsWith url "http://" = true ∨ jsStartsWith url "https://" = true)
    (hmiss : List.lookup (cachePathOf baseDir url) w.files = none)
    (hnet : net url = FetchOutcome.response true body) :
    (getPixivLinks readdir net parseJson baseDir url w).2.files
      = (cachePathOf baseDir url, body) :: w.files
    ∧ (getPixivLinks readdir net parseJson baseDir url w).2.fetches = url :: w.fetches
    ∧ (getPixivLinks readdir net parseJson baseDir url w).1 = decodeJson (parseJson body)
    ∧ (∀ (w' : World) (c : String),
        List.lookup (cachePathOf baseDir url) w'.files = some c →
          (getPixivLinks readdir net parseJson baseDir url w').2.fetches = w'.fetches
          ∧ (getPixivLinks readdir net parseJson baseDir url w').2.files = w'.files
          ∧ (getPixivLinks readdir net parseJson baseDir url w').1 = decodeJson (parseJson c)) := by
  have hne : ¬(url = "") := by
    rintro rfl
    rcases hhttp with h | h <;> exact absurd h (by decide)
  refine ⟨?_, ?_, ?_, ?_⟩
  case _ =>
    simp only [getPixivLinks, getPixivRemote, if_neg hne, if_neg (not_not_intro hhttp), hmiss, hnet]
    rcases hpj : parseJson body with _ | v
    · simp [addErr, addFileRead, putFile, addFetch]
    · cases v <;> simp [addErr, addFileRead, putFile, addFetch]
  case _ =>
    simp only [getPixivLinks, getPixivRemote, if_neg hne, if_neg (not_not_intro hhttp), hmiss, hnet]
    rcases hpj : parseJson body with _ | v
    · simp [addErr, addFileRead, putFile, addFetch]
    · cases v <;> simp [addErr, addFileRead, putFile, addFetch]
  case _ =>
    simp only [getPixivLinks, getPixivRemote, if_neg hne, if_neg (not_not_intro hhttp), hmiss, hnet]
    rcases hpj : parseJson body with _ | v
    · simp [hpj, decodeJson, addErr, addFileRead, putFile, addFetch]
    · cases v <;> simp [hpj, decodeJson, addErr, addFileRead, putFile, addFetch]
  case _ =>
    intro w' c hc
    simp only [getPixivLinks, getPixivRemote, if_neg hne, if_neg (not_not_intro hhttp), hc]
    rcases hpj : parseJson c with _ | v
    · simp [hpj, decodeJson, addErr, addFileRead]
    · cases v <;> simp [hpj, decodeJson, addErr, addFileRead]

/-- Witness for C2: one concrete first resolution fetches once and caches,
with the parsed body as result. -/
theorem remote_cache_once_witness :
    List.lookup (cachePathOf "/app" "https://e.com/list.json") (World.mk [] [] [] [] 0).files = none
    ∧ (getPixivLinks (fun _ => Except.error "e") (fun _ => FetchOutcome.response true "x")
        (fun _ => some (JsonVal.jarr ["a"])) "/app" "https://e.com/list.json"
        (World.mk [] [] [] [] 0)).2.fetches = ["https://e.com/list.json"]
    ∧ (getPixivLinks (fun _ => Except.error "e") (fun _ => FetchOutcome.response true "x")
        (fun _ => some (JsonVal.jarr ["a"])) "/app" "https://e.com/list.json"
        (World.mk [] [] [] [] 0)).1 = ["a"] :=
  ⟨by decide,
    (remote_cache_once _ _ _ "/app" "https://e.com/list.json" "x" _
      (Or.inr (by decide)) (by decide) rfl).2.1,
    (remote_cache_once _ _ _ "/app" "https://e.com/list.json" "x" _
      (Or.inr (by decide)) (by decide) rfl).2.2.1⟩

/-- Claim C8: for a local directory source, the candidate list is exactly
the set of regular files directly inside the resolved directory whose name
ends, case-insensitively, with one of the five image extensions, each as
its joined path; and a directory-read error is logged and yields the empty
sequence without raising. -/
theorem local_dir_listing (readdir : String → Except String (List DirEntry))
    (net : String → FetchOutcome) (parseJson : String → Option JsonVal)
    (baseDir url : String) (w : World)
    (hne : ¬(url = ""))
    (h1 : jsStartsWith url "http://" = false)
    (h2 : jsStartsWith url "https://" = false) :
    (∀ entries, readdir (resolvedDirOf baseDir url) = Except.ok entries →
       (∀ p, p ∈ (getPixivLinks readdir net parseJson baseDir url w).1 ↔
          ∃ e, e ∈ entries ∧ (e.isFile && isImageName e.name) = true
            ∧ p = joinPath (resolvedDirOf baseDir url) e.name)
       ∧ (getPixivLinks readdir net parseJson baseDir url w).2.files = w.files)
    ∧ (∀ msg, readdir (resolvedDirOf baseDir url) = Except.error msg →
        (getPixivLinks readdir net parseJson baseDir url w).1 = []
        ∧ (getPixivLinks readdir net parseJson baseDir url w).2
            = addErr (addDirRead w (resolvedDirOf baseDir url))) := by
  have hc : ¬(jsStartsWith url "http://" = true ∨ jsStartsWith url "https://" = true) := by
    simp [h1, h2]
  constructor
  · intro entries hok
    simp only [getPixivLinks, if_neg hne, if_pos hc, hok]
    constructor
    · intro p
      simp only [List.mem_map, List.mem_filter]
      constructor
      · rintro ⟨e, ⟨he, hf⟩, hp⟩
        exact ⟨e, he, hf, hp.symm⟩
      · rintro ⟨e, he, hf, hp⟩
        exact ⟨e, ⟨he, hf⟩, hp.symm⟩
    · simp [addDirRead]
  · intro msg herr
    simp only [getPixivLinks, if_neg hne, if_pos hc, herr]
    exact ⟨trivial, trivial⟩

/-- Witness for C8: a concrete directory with a case-varied image file, a
non-image file and a subdirectory lists exactly the image files. -/
theorem local_dir_listing_witness :
    "/app/imgs/a.JPG" ∈ (getPixivLinks
      (fun _ => Except.ok [DirEntry.mk "a.JPG" true, DirEntry.mk "b.txt" true,
        DirEntry.mk "c.png" false, DirEntry.mk "d.webp" true])
      (fun _ => FetchOutcome.failure) (fun _ => none) "/app" "imgs"
      (World.mk [] [] [] [] 0)).1
    ∧ (getPixivLinks
      (fun _ => Except.ok [DirEntry.mk "a.JPG" true, DirEntry.mk "b.txt" true,
        DirEntry.mk "c.png" false, DirEntry.mk "d.webp" true])
      (fun _ => FetchOutcome.failure) (fun _ => none) "/app" "imgs"
      (World.mk [] [] [] [] 0)).1.length = 2 :=
  ⟨(((local_dir_listing _ _ _ "/app" "imgs" _ (by decide) (by decide) (by decide)).1
      _ rfl).1 "/app/imgs/a.JPG").mpr
      ⟨DirEntry.mk "a.JPG" true, by decide, by decide, by decide⟩,
    by decide⟩

/-- Claim C7: the MIME type of an inlined image is taken from the
candidate's extension by the fixed mapping png, gif, webp to their image
types and anything else to jpeg, with the webp case existing only in the
local branch: the remote branch can never produce the webp type, and a
remote candidate with a webp extension gets jpeg while a local one gets
webp, case-insensitively in both branches; and every successfully
fetched candidate is inlined with exactly the MIME type of its branch. -/
theorem mime_mapping :
    (∀ ext : String, ¬(ext = "png") → ¬(ext = "gif") → extMimeRemote ext = "image/jpeg")
    ∧ (∀ ext : String, ¬(ext = "png") → ¬(ext = "gif") → ¬(ext = "webp") →
        extMimeLocal ext = "image/jpeg")
    ∧ extMimeRemote "png" = "image/png" ∧ extMimeRemote "gif" = "image/gif"
    ∧ extMimeLocal "png" = "image/png" ∧ extMimeLocal "gif" = "image/gif"
    ∧ extMimeLocal "webp" = "image/webp" ∧ extMimeRemote "webp" = "image/jpeg"
    ∧ (∀ candidate : String, ¬(remoteMime candidate = "image/webp"))
    ∧ remoteMime "https://a.example/pic.webp" = "image/jpeg"
    ∧ localMime "/imgs/pic.webp" = "image/webp"
    ∧ localMime "/imgs/PIC.WEBP" = "image/webp"
    ∧ remoteMime "https://a.example/p.PNG" = "image/png"
    ∧ localMime "/imgs/x.jpg" = "image/jpeg"
    ∧ (∀ (imgFetch : String → Option (List Nat)) (arr : List String) (pick : Nat)
        (bytes : List Nat), imgFetch (arr.getD pick "") = some bytes → ¬(arr.length = 0) →
        contentFor imgFetch arr pick = mkContent (base64Encode bytes)
          (if jsStartsWith (arr.getD pick "") "http://" = true
              ∨ jsStartsWith (arr.getD pick "") "https://" = true
           then remoteMime (arr.getD pick "") else localMime (arr.getD pick ""))) := by
  refine ⟨?_, ?_, by decide, by decide, by decide, by decide, by decide, by decide, ?_,
    by decide, by decide, by decide, by decide, by decide, ?_⟩
  · intro ext hp hg
    simp [extMimeRemote, hp, hg]
  · intro ext hp hg hw
    simp [extMimeLocal, hp, hg, hw]
  · intro candidate
    unfold remoteMime extMimeRemote
    split_ifs <;> decide
  · intro imgFetch arr pick bytes hb hlen
    simp only [contentFor, if_neg hlen, hb]

/-- Unfolding of the list action once the tag argument is valid and the
tag has rows: the out-of-range test against the page count at size 10, and
otherwise the slice of the requested page. -/
theorem lookAction_eq (tag : String) (page : Option String) (rows : List String)
    (hvalid : ¬(tag = "" ∨ jsTrim tag = "" ∨ jsStartsWith tag "<" = true))
    (hrow : ¬(rows.length = 0)) :
    lookAction (some tag) page rows =
      if ((rows.length + 10 - 1) / 10) < pageNumOf page then
        LookResult.outOfRange (pageNumOf page) ((rows.length + 10 - 1) / 10)
      else
        LookResult.pageMsg ((rows.drop ((pageNumOf page - 1) * 10)).take 10)
          (pageNumOf page) ((rows.length + 10 - 1) / 10) rows.length := by
  simp only [lookAction, if_neg hvalid, if_neg hrow]

/-- Claim C3: with 25 stored images, pages are served at fixed size 10 and
1-indexed: pages 1 and 2 hold 10 images each, page 3 holds 5, page 4 is
rejected as out of range with the total of 3 pages reported; and in
general any requested page number strictly greater than the page count is
rejected with the valid total reported. -/
theorem look_pagination (tag : String) (rows : List String)
    (hvalid : ¬(tag = "" ∨ jsTrim tag = "" ∨ jsStartsWith tag "<" = true))
    (h25 : rows.length = 25) :
    lookAction (some tag) (some "1") rows = LookResult.pageMsg ((rows.drop 0).take 10) 1 3 25
    ∧ ((rows.drop 0).take 10).length = 10
    ∧ lookAction (some tag) (some "2") rows = LookResult.pageMsg ((rows.drop 10).take 10) 2 3 25
    ∧ ((rows.drop 10).take 10).length = 10
    ∧ lookAction (some tag) (some "3") rows = LookResult.pageMsg ((rows.drop 20).take 10) 3 3 25
    ∧ ((rows.drop 20).take 10).length = 5
    ∧ lookAction (some tag) (some "4") rows = LookResult.outOfRange 4 3
    ∧ (∀ (rows2 : List String) (s : String) (n : Int), ¬(rows2.length = 0) →
        jsParseInt s = some n → (((rows2.length + 10 - 1) / 10 : Nat) : Int) < n →
        lookAction (some tag) (some s) rows2
          = LookResult.outOfRange n.toNat ((rows2.length + 10 - 1) / 10)) := by
  have hrow : ¬(rows.length = 0) := by omega
  have e1 : pageNumOf (some "1") = 1 := by decide
  have e2 : pageNumOf (some "2") = 2 := by decide
  have e3 : pageNumOf (some "3") = 3 := by decide
  have e4 : pageNumOf (some "4") = 4 := by decide
  refine ⟨?_, ?_, ?_, ?_, ?_, ?_, ?_, ?_⟩
  · rw [lookAction_eq tag (some "1") rows hvalid hrow, e1, h25]
    norm_num
  · rw [List.length_take, List.length_drop, h25]
    omega
  · rw [lookAction_eq tag (some "2") rows hvalid hrow, e2, h25]
    norm_num
  · rw [List.length_take, List.length_drop, h25]
    omega
  · rw [lookAction_eq tag (some "3") rows hvalid hrow, e3, h25]
    norm_num
  · rw [List.length_take, List.length_drop, h25]
    omega
  · rw [lookAction_eq tag (some "4") rows hvalid hrow, e4, h25]
    norm_num
  · intro rows2 s n hr hp hgt
    have hpn : pageNumOf (some s) = n.toNat := by
      have hn1 : (1 : Int) ≤ n := by
        have h0 : (0 : Int) ≤ (((rows2.length + 10 - 1) / 10 : Nat) : Int) := Int.natCast_nonneg _
        omega
      simp only [pageNumOf, hp]
      have hn0 : ¬(n = 0) := by omega
      rw [if_neg hn0]
      have hm : (1 : Int) ⊔ n = n := sup_eq_right.mpr hn1
      rw [hm]
    rw [lookAction_eq tag (some s) rows2 hvalid hr, hpn, if_pos (by omega)]

/-- Witness for C3 at 25 concrete rows: page 4 is rejected with 3 pages
reported. -/
theorem look_pagination_witness :
    ¬(("cat" : String) = "" ∨ jsTrim "cat" = "" ∨ jsStartsWith "cat" "<" = true)
    ∧ (List.replicate 25 "u").length = 25
    ∧ lookAction (some "cat") (some "4") (List.replicate 25 "u") = LookResult.outOfRange 4 3 :=
  ⟨by decide, by decide,
    (look_pagination "cat" (List.replicate 25 "u") (by decide) (by decide)).2.2.2.2.2.2.1⟩

/-- Claim C10: with a valid tag owning at least one row, an absent,
non-numeric, zero or negative page argument is silently coerced to page 1
and the first page is returned; the out-of-range rejection fires only for
page numbers above the total, never below. -/
theorem page_defaulting (tag : String) (rows : List String) (p : Option String)
    (hvalid : ¬(tag = "" ∨ jsTrim tag = "" ∨ jsStartsWith tag "<" = true))
    (hrow : ¬(rows.length = 0))
    (hbad : p = none ∨ (∃ s, p = some s ∧ jsParseInt s = none)
        ∨ (∃ s n, p = some s ∧ jsParseInt s = some n ∧ n ≤ 0)) :
    lookAction (some tag) p rows
      = LookResult.pageMsg ((rows.drop 0).take 10) 1 ((rows.length + 10 - 1) / 10) rows.length
    ∧ (∀ (q : Option String) (a b : Nat),
        lookAction (some tag) q rows = LookResult.outOfRange a b → b < a) := by
  have hpn : pageNumOf p = 1 := by
    rcases hbad with rfl | ⟨s, rfl, hps⟩ | ⟨s, n, rfl, hps, hn⟩
    · decide
    · simp [pageNumOf, hps]
    · simp only [pageNumOf, hps]
      by_cases hn0 : n = 0
      · rw [if_pos hn0]
        decide
      · rw [if_neg hn0]
        have hm : (1 : Int) ⊔ n = 1 := sup_eq_left.mpr (by omega)
        rw [hm]
        decide
  constructor
  · rw [lookAction_eq tag p rows hvalid hrow, hpn, if_neg (by omega)]
  · intro q a b h
    rw [lookAction_eq tag q rows hvalid hrow] at h
    by_cases hc : (rows.length + 10 - 1) / 10 < pageNumOf q
    · rw [if_pos hc] at h
      simp only [LookResult.outOfRange.injEq] at h
      omega
    · rw [if_neg hc] at h
      simp at h

/-- Witness for C10: a non-numeric page argument on a one-row tag yields
the first page. -/
theorem page_defaulting_witness :
    lookAction (some "cat") (some "abc") ["u"]
      = LookResult.pageMsg (((["u"] : List String).drop 0).take 10) 1 1 1 :=
  (page_defaulting "cat" ["u"] (some "abc") (by decide) (by decide)
    (Or.inr (Or.inl ⟨"abc", rfl, by decide⟩))).1

/-- Claim C5: adding N collected attachments under a fresh valid tag
creates exactly one tag row and appends exactly N image rows, all sharing
the uploader display name, the coerced numeric uploader id and the single
batch timestamp. -/
theorem add_image_batch (tag : String) (quoteEls : Option (List MsgElement))
    (sessionEls : List MsgElement) (username userId : Option String) (now : Nat) (db : DB)
    (hvalid : ¬(tag = "" ∨ jsTrim tag = "" ∨ jsStartsWith tag "<" = true))
    (hnew : db.tags.filter (fun t => t == tag) = [])
    (himgs : ¬(collectImgs quoteEls sessionEls = [])) :
    (addAction (some tag) quoteEls sessionEls username userId now db).1.tags = db.tags ++ [tag]
    ∧ (addAction (some tag) quoteEls sessionEls username userId now db).1.images
        = db.images ++ (collectImgs quoteEls sessionEls).map
            (fun u => ImageRow.mk tag u (uploaderNameOf username) (jsNumberOr0 userId) now)
    ∧ (addAction (some tag) quoteEls sessionEls username userId now db).1.images.length
        = db.images.length + (collectImgs quoteEls sessionEls).length
    ∧ (∀ r ∈ ((addAction (some tag) quoteEls sessionEls username userId now db).1.images.drop
          db.images.length),
        r.tag = tag ∧ r.uploader = uploaderNameOf username
        ∧ r.uploaderId = jsNumberOr0 userId ∧ r.upload_time = now)
    ∧ (addAction (some tag) quoteEls sessionEls username userId now db).2
        = AddResult.added tag (collectImgs quoteEls sessionEls).length := by
  have hlen : ¬((collectImgs quoteEls sessionEls).length = 0) := by
    intro h
    exact himgs (List.length_eq_zero.mp h)
  have key : addAction (some tag) quoteEls sessionEls username userId now db
      = (DB.mk (db.tags ++ [tag])
          (db.images ++ (collectImgs quoteEls sessionEls).map
            (fun u => ImageRow.mk tag u (uploaderNameOf username) (jsNumberOr0 userId) now)),
        AddResult.added tag (collectImgs quoteEls sessionEls).length) := by
    simp only [addAction, if_neg hvalid, if_neg hlen, hnew]
    norm_num
  rw [key]
  refine ⟨rfl, rfl, ?_, ?_, rfl⟩
  · simp [List.length_append]
  · intro r hr
    rw [List.drop_left] at hr
    rcases List.mem_map.mp hr with ⟨u, hu, rfl⟩
    exact ⟨rfl, rfl, rfl, rfl⟩

/-- Witness for C5: two attachments (one quoted, one in the message) under
a fresh tag produce one tag row and two image rows sharing their metadata. -/
theorem add_image_batch_witness :
    ¬(collectImgs (some [MsgElement.mk "img" "u1"]) [MsgElement.mk "img" "u2",
        MsgElement.mk "text" "x"] = [])
    ∧ (addAction (some "cat") (some [MsgElement.mk "img" "u1"]) [MsgElement.mk "img" "u2",
        MsgElement.mk "text" "x"] (some "alice") (some "42") 5 (DB.mk [] [])).1.tags = ["cat"]
    ∧ (addAction (some "cat") (some [MsgElement.mk "img" "u1"]) [MsgElement.mk "img" "u2",
        MsgElement.mk "text" "x"] (some "alice") (some "42") 5 (DB.mk [] [])).1.images
        = (collectImgs (some [MsgElement.mk "img" "u1"]) [MsgElement.mk "img" "u2",
            MsgElement.mk "text" "x"]).map
            (fun u => ImageRow.mk "cat" u (uploaderNameOf (some "alice"))
              (jsNumberOr0 (some "42")) 5) :=
  ⟨by decide,
    (add_image_batch "cat" (some [MsgElement.mk "img" "u1"]) [MsgElement.mk "img" "u2",
      MsgElement.mk "text" "x"] (some "alice") (some "42") 5 (DB.mk [] [])
      (by decide) (by decide) (by decide)).1,
    (add_image_batch "cat" (some [MsgElement.mk "img" "u1"]) [MsgElement.mk "img" "u2",
      MsgElement.mk "text" "x"] (some "alice") (some "42") 5 (DB.mk [] [])
      (by decide) (by decide) (by decide)).2.1⟩

/-- Claim C6: an argument is treated as missing exactly when it is
undefined, empty or whitespace-only after trimming, or begins with the
less-than character; in particular an unresolved placeholder-shaped
argument is missing for every command that validates one: the list and
add commands answer with their usage message exactly then, and the random
command falls back to the unfiltered query exactly then. -/
theorem arg_heuristic :
    (∀ s : String, argMissingSpec (some ("<" ++ s)))
    ∧ (∀ (a p : Option String) (rows : List String),
        lookAction a p rows = LookResult.usage ↔ argMissingSpec a)
    ∧ (∀ (a : Option String) (quoteEls : Option (List MsgElement))
        (sessionEls : List MsgElement) (username userId : Option String) (now : Nat) (db : DB),
        (addAction a quoteEls sessionEls username userId now db).2 = AddResult.usage
          ↔ argMissingSpec a)
    ∧ (∀ a : Option String, randomCondition a = RandCond.unfiltered ↔ argMissingSpec a)
    ∧ (∀ (a : Option String) (images : List ImageRow),
        argMissingSpec a → randomQuery images a = images) := by
  have h4 : ∀ a : Option String, randomCondition a = RandCond.unfiltered ↔ argMissingSpec a := by
    intro a
    cases a with
    | none => simp [randomCondition, argMissingSpec]
    | some s =>
        by_cases hg : (s = "" ∨ jsTrim s = "" ∨ jsStartsWith s "<" = true)
        · have hcond : ¬(¬(s = "") ∧ ¬(jsTrim s = "") ∧ ¬(jsStartsWith s "<" = true)) := by
            tauto
          simp only [randomCondition, if_neg hcond]
          exact iff_of_true trivial (Or.inr ⟨s, rfl, hg⟩)
        · push_neg at hg
          simp only [randomCondition, if_pos hg]
          apply iff_of_false
          · simp
          · rintro (h | ⟨t, ht, hcond⟩)
            · exact Option.noConfusion h
            · cases Option.some.inj ht
              rcases hcond with h | h | h
              · exact hg.1 h
              · exact hg.2.1 h
              · exact hg.2.2 h
  refine ⟨?_, ?_, ?_, h4, ?_⟩
  · intro s
    refine Or.inr ⟨"<" ++ s, rfl, Or.inr (Or.inr ?_)⟩
    simp [jsStartsWith, List.isPrefixOf]
  · intro a p rows
    cases a with
    | none => simp [lookAction, argMissingSpec]
    | some s =>
        by_cases hg : (s = "" ∨ jsTrim s = "" ∨ jsStartsWith s "<" = true)
        · simp only [lookAction, if_pos hg]
          exact iff_of_true trivial (Or.inr ⟨s, rfl, hg⟩)
        · simp only [lookAction, if_neg hg]
          apply iff_of_false
          · split_ifs <;> simp
          · rintro (h | ⟨t, ht, hcond⟩)
            · exact Option.noConfusion h
            · cases Option.some.inj ht
              exact hg hcond
  · intro a quoteEls sessionEls username userId now db
    cases a with
    | none => simp [addAction, argMissingSpec]
    | some s =>
        by_cases hg : (s = "" ∨ jsTrim s = "" ∨ jsStartsWith s "<" = true)
        · simp only [addAction, if_pos hg]
          exact iff_of_true trivial (Or.inr ⟨s, rfl, hg⟩)
        · simp only [addAction, if_neg hg]
          apply iff_of_false
          · split_ifs <;> simp
          · rintro (h | ⟨t, ht, hcond⟩)
            · exact Option.noConfusion h
            · cases Option.some.inj ht
              exact hg hcond
  · intro a images h
    simp only [randomQuery, (h4 a).mpr h]
